import Mathlib

/-!
# Verification of the gstore_fdw persistent columnar row store

Shallow embedding of the core data structures and operations of
src/src/gstore_fdw.c: MVCC visibility checks, the hierarchical row-id
allocator, the redo-log append/rotation/replay protocol, recovery, and the
primary-key hash index lookup.  Definitions are translated from the C source;
machine integers are modelled as Nat with explicit truncation where the C
type forces wrap-around.  Loops are modelled with explicit fuel so that all
definitions are structurally recursive and kernel-computable; fuel bounds are
chosen so that exhaustion is unreachable on the states the C code can see,
and each such spot is documented.
-/

set_option autoImplicit false

namespace GstoreFdw

/-- PostgreSQL InvalidTransactionId (0). -/
def InvalidTransactionId : Nat := 0

/-- PostgreSQL FrozenTransactionId (2). -/
def FrozenTransactionId : Nat := 2

/-- PostgreSQL FirstNormalTransactionId (3). -/
def FirstNormalTransactionId : Nat := 3

/-- UINT_MAX, the sentinel used for invalid row-ids throughout the source. -/
def UINTMAX32 : Nat := 4294967295

/-- The all-ones 64-bit word, the value the C source writes as ~0UL. -/
def allOnes64 : Nat := 2 ^ 64 - 1

/-- Per-row system column: xmin, xmax and cid, as stored in the last
(system) column of the base store.  Mirrors GstoreFdwSysattr. -/
structure GstoreFdwSysattr where
  xmin : Nat
  xmax : Nat
  cid  : Nat
deriving DecidableEq, Repr

/-- Transaction-status oracle standing for the PostgreSQL callbacks the
visibility code consults: TransactionIdIsCurrentTransactionId,
TransactionIdIsInProgress and TransactionIdDidCommit.  The checks are made
at call time; they carry no snapshot contents. -/
structure TxEnv where
  isCurrent  : Nat → Bool
  inProgress : Nat → Bool
  didCommit  : Nat → Bool

/-- Modelled from PostgreSQL core (transam.c), an external collaborator of
this file: TransactionIdPrecedes(a, b).  Special ids (below
FirstNormalTransactionId) compare directly; normal ids compare by the sign
of the wrap-around 32-bit difference. -/
def transactionIdPrecedes (a b : Nat) : Bool :=
  if a < FirstNormalTransactionId ∨ b < FirstNormalTransactionId then
    decide (a < b)
  else
    decide (((a + 2 ^ 32) - b) % 2 ^ 32 ≥ 2 ^ 31)

/-- Second half of __gstoreCheckVisibilityForRead (gstore_fdw.c:488-516),
reached once the inserting transaction is known committed: case analysis on
xmax.  Returns the visibility verdict together with the possibly updated
(frozen) system attribute, since the C code caches resolved statuses back
into the row.  Note that the aborted-deleter branch assigns
xmax := InvalidTransactionId and then falls through to the final
return false, exactly as the C control flow does. -/
def __gstoreCheckReadXmax (env : TxEnv) (s : GstoreFdwSysattr) (curr_cid : Nat) :
    Bool × GstoreFdwSysattr :=
  if s.xmax = InvalidTransactionId then (true, s)
  else if s.xmax ≠ FrozenTransactionId then
    if env.isCurrent s.xmax then
      if s.cid ≥ curr_cid then (true, s) else (false, s)
    else if env.inProgress s.xmax then (true, s)
    else if env.didCommit s.xmax then (false, { s with xmax := FrozenTransactionId })
    else (false, { s with xmax := InvalidTransactionId })
  else (false, s)

/-- __gstoreCheckVisibilityForRead (gstore_fdw.c:454-517).  The only piece
of the snapshot the code consumes is the current command id; every
transaction status is resolved against the live oracle at check time. -/
def __gstoreCheckVisibilityForRead (env : TxEnv) (s : GstoreFdwSysattr) (curr_cid : Nat) :
    Bool × GstoreFdwSysattr :=
  if s.xmin ≠ FrozenTransactionId then
    if env.isCurrent s.xmin then
      if s.cid ≥ curr_cid then (false, s)
      else if s.xmax = InvalidTransactionId then (true, s)
      else if s.xmax = FrozenTransactionId then (false, s)
      else if ¬ env.isCurrent s.xmax then (true, s)
      else __gstoreCheckReadXmax env s curr_cid
    else if env.didCommit s.xmin then
      __gstoreCheckReadXmax env { s with xmin := FrozenTransactionId } curr_cid
    else if env.inProgress s.xmin then (false, s)
    else (false, { s with xmin := InvalidTransactionId })
  else __gstoreCheckReadXmax env s curr_cid

/-- Second half of gstoreCheckVisibilityForWrite (gstore_fdw.c:582-604),
reached once the insert is known committed.  Faithful to the source: the
committed-deleter branch overwrites xmax with InvalidTransactionId and then
falls through to the TransactionIdPrecedes(xmax, oldestXmin) test, so that
test reads the already overwritten value. -/
def __gstoreCheckWriteXmax (env : TxEnv) (s : GstoreFdwSysattr) (oldestXmin : Nat) :
    Bool × GstoreFdwSysattr :=
  if s.xmax = InvalidTransactionId then (false, s)
  else if s.xmax ≠ FrozenTransactionId then
    if env.inProgress s.xmax then (false, s)
    else if env.didCommit s.xmax then
      let s1 : GstoreFdwSysattr := { s with xmax := InvalidTransactionId }
      if ¬ transactionIdPrecedes s1.xmax oldestXmin then (false, s1) else (true, s1)
    else (false, { s with xmax := InvalidTransactionId })
  else
    if ¬ transactionIdPrecedes s.xmax oldestXmin then (false, s) else (true, s)

/-- gstoreCheckVisibilityForWrite (gstore_fdw.c:543-605): decides whether a
row slot may be reused by a writer, following the HeapTupleSatisfiesVacuum
pattern. -/
def gstoreCheckVisibilityForWrite (env : TxEnv) (s : GstoreFdwSysattr) (oldestXmin : Nat) :
    Bool × GstoreFdwSysattr :=
  if s.xmin ≠ FrozenTransactionId then
    if s.xmin = InvalidTransactionId then (true, s)
    else if env.isCurrent s.xmin then (false, s)
    else if env.inProgress s.xmin then (false, s)
    else if env.didCommit s.xmin then
      __gstoreCheckWriteXmax env { s with xmin := FrozenTransactionId } oldestXmin
    else (true, { s with xmin := InvalidTransactionId })
  else __gstoreCheckWriteXmax env s oldestXmin

/-! ## RowIdAllocator: hierarchical bitmap over an array of 64-bit words

The RowIdMap section is an array of cl_ulong words behind a pointer.  We
model the word memory as a heap, a total function from word index to word
value; loads are application and stores are pointwise update. -/

/-- Word memory of the RowIdMap (index of a 64-bit word to its value). -/
abbrev WordMem := Nat → Nat

/-- Load of one 64-bit word of the RowIdMap. -/
def wordAt (arr : WordMem) (i : Nat) : Nat := arr i

/-- Store of one 64-bit word of the RowIdMap. -/
def setWord (arr : WordMem) (i v : Nat) : WordMem :=
  fun j => if j = i then v else arr j

/-- Fuel-bounded search for the lowest clear bit: models
__builtin_ffsl(~map) - 1.  Fuel of 64 is exact for 64-bit words. -/
def lowestClearBitAux : Nat → Nat → Nat
  | 0, _ => 0
  | fuel + 1, m => if m % 2 = 0 then 0 else lowestClearBitAux fuel (m / 2) + 1

/-- Lowest clear bit of a 64-bit word. -/
def lowestClearBit (m : Nat) : Nat := lowestClearBitAux 64 m

/-- Size, in 64-bit words, of the RowIdMap body; mirrors
gstoreFdwRowIdMapSize (gstore_fdw.c:1757-1772) without the fixed header:
TYPEALIGN(256, nrooms) / 64 is ((nrooms + 255) / 256) * 4. -/
def gstoreFdwRowIdMapWords (nrooms : Nat) : Nat :=
  if nrooms ≤ 2 ^ 8 then 4
  else if nrooms ≤ 2 ^ 16 then 4 + ((nrooms + 255) / 256) * 4
  else if nrooms ≤ 2 ^ 24 then 4 + 1024 + ((nrooms + 255) / 256) * 4
  else 4 + 1024 + 262144 + ((nrooms + 255) / 256) * 4

/-- Word offset of the leaf level of the RowIdMap, as fixed by the on-disk
layout: gstoreFdwRowIdMapSize and the bottom pointers of
__gstoreFdwReleaseRowId (gstore_fdw.c:1893-1938) agree on it. -/
def rowIdMapLeafBase (nrooms : Nat) : Nat :=
  if nrooms ≤ 2 ^ 8 then 0
  else if nrooms ≤ 2 ^ 16 then 4
  else if nrooms ≤ 2 ^ 24 then 4 + 1024
  else 4 + 1024 + 262144

/-- The leaf bit of a row-id in the RowIdMap, per the on-disk layout. -/
def leafBitSet (arr : WordMem) (nrooms rowid : Nat) : Bool :=
  (wordAt arr (rowIdMapLeafBase nrooms + (rowid >>> 6))).testBit (rowid % 64)

/-- Word offset, relative to the current level base pointer, of the next
level as __gstoreFdwAllocateRowId computes it (gstore_fdw.c:1790-1809).
The parameter lv is 3 - depth, so lv = 3 is depth 0 and lv = 0 is the
deepest possible level (depth 3, always a leaf). -/
def nextOffsetAt (lv nrooms : Nat) : Option Nat :=
  match lv with
  | 3 => if nrooms > 256 then some 4 else none
  | 2 => if nrooms > 65536 then some (4 + (4 <<< 8)) else none
  | 1 => if nrooms > 16777216 then some (4 + (4 <<< 8) + (4 <<< 16)) else none
  | _ => none

/-- Has-unused test a node performs on exit:
(base[0] & base[1] & base[2] & base[3]) == ~0UL (gstore_fdw.c:1851-1854). -/
def nodeHasUnused (arr : WordMem) (bIdx : Nat) : Bool :=
  (wordAt arr bIdx &&& wordAt arr (bIdx + 1) &&&
   wordAt arr (bIdx + 2) &&& wordAt arr (bIdx + 3)) ≠ allOnes64

/-- Core loop of __gstoreFdwAllocateRowId (gstore_fdw.c:1774-1857): the
for-k word scan with the goto-retry loop, plus the recursion into the next
level.  The state (k, map, minId) is the live local state of the C loop at
the retry label; gas strictly decreases on every step and is a budget on
the total number of loop iterations and recursive calls, so every
terminating C execution is reproduced by a large enough gas (each retry
iteration permanently sets one more bit of the 64-bit map, each word scan
moves k forward, and the level recursion is bounded by lv).  The child
entry code (range guard, mask and start extraction) is inlined at the call
site; the gas = 0 and lv-underflow fallbacks are unreachable then.
Returns (rowid, memory, has_unused_rowids). -/
def __allocGo (nrooms : Nat) :
    Nat → Nat → Nat → Nat → Nat → Nat → Nat → WordMem → Nat × WordMem × Bool
  | 0, _, _, _, _, _, _, arr => (UINTMAX32, arr, true)
  | gas + 1, lv, offset, baseOff, k, map, minId, arr =>
    if 4 ≤ k then
      (UINTMAX32, arr, nodeHasUnused arr (baseOff + 4 * offset))
    else if map = allOnes64 then
      -- word exhausted: k++, mask = 0
      __allocGo nrooms gas lv offset baseOff (k + 1)
        (wordAt arr (baseOff + 4 * offset + (k + 1))) minId arr
    else
      let r := lowestClearBit map
      let bit := 2 ^ r
      let rowid := r ||| ((offset <<< 8) % 2 ^ 32) ||| (k <<< 6)
      match nextOffsetAt lv nrooms with
      | none =>
        -- leaf level: grab the bit if the row-id is in range, else give up
        if rowid < nrooms then
          let idx := baseOff + 4 * offset + k
          let arr1 := setWord arr idx (wordAt arr idx ||| bit)
          (rowid, arr1, nodeHasUnused arr1 (baseOff + 4 * offset))
        else
          (UINTMAX32, arr, nodeHasUnused arr (baseOff + 4 * offset))
      | some off =>
        -- internal level: entry of the recursive call, inlined
        let cMinId := (minId <<< 8) % 2 ^ 32
        let child :=
          if (rowid <<< 8) % 2 ^ 32 ≥ nrooms then (UINTMAX32, arr, false)
          else if lv = 0 then (UINTMAX32, arr, true)  -- C switch default, unreachable
          else
            let cMask := 2 ^ ((cMinId >>> 24) &&& 63) - 1
            let cStart := cMinId >>> 30
            let cBIdx := (baseOff + off) + 4 * rowid
            __allocGo nrooms gas (lv - 1) rowid (baseOff + off) cStart
              (wordAt arr (cBIdx + cStart) ||| cMask) cMinId arr
        match child with
        | (crowid, arr1, hasUnused) =>
          let idx := baseOff + 4 * offset + k
          let arr2 :=
            if hasUnused then arr1
            else setWord arr1 idx (wordAt arr1 idx ||| bit)
          if crowid = UINTMAX32 then
            -- this subtree yielded nothing: mark it locally and retry
            __allocGo nrooms gas lv offset baseOff k (map ||| bit) 0 arr2
          else
            (crowid, arr2, nodeHasUnused arr2 (baseOff + 4 * offset))

/-- Gas budget that dominates any terminating run of the allocator loop. -/
def allocGas : Nat := 67108864

/-- __gstoreFdwAllocateRowId at depth 0 (gstore_fdw.c:1774-1857): the range
guard and the mask/start extraction of the top-level node, then the word
scan. -/
def __gstoreFdwAllocateRowId (arr : WordMem) (nrooms minId : Nat) :
    Nat × WordMem × Bool :=
  if (0 <<< 8) % 2 ^ 32 ≥ nrooms then (UINTMAX32, arr, false)
  else
    let mask := 2 ^ ((minId >>> 24) &&& 63) - 1
    let start := minId >>> 30
    __allocGo nrooms allocGas 3 0 0 start (wordAt arr start ||| mask) minId arr

/-- gstoreFdwAllocateRowId (gstore_fdw.c:1859-1884): pre-shifts min_rowid
according to the number of bitmap levels (cl_uint arithmetic, hence the
2^32 truncation), then runs the depth-0 search under the allocator lock.
Returns the allocated row-id (UINT_MAX when none) and the updated map. -/
def gstoreFdwAllocateRowId (arr : WordMem) (nrooms min_rowid : Nat) :
    Nat × WordMem :=
  if min_rowid < nrooms then
    let minId :=
      if nrooms ≤ 2 ^ 8 then (min_rowid <<< 24) % 2 ^ 32
      else if nrooms ≤ 2 ^ 16 then (min_rowid <<< 16) % 2 ^ 32
      else if nrooms ≤ 2 ^ 24 then (min_rowid <<< 8) % 2 ^ 32
      else min_rowid
    let res := __gstoreFdwAllocateRowId arr nrooms minId
    (res.1, res.2.1)
  else (UINTMAX32, arr)

/-- Clear one bit of one word: base[i] &= ~(1UL << b). -/
def clearWordBit (arr : WordMem) (i b : Nat) : WordMem :=
  setWord arr i (wordAt arr i &&& (allOnes64 ^^^ 2 ^ b))

/-- __gstoreFdwReleaseRowId (gstore_fdw.c:1886-1943): tests the leaf bit
first (returning false, with no modification, when it is already clear or
the row-id is out of range), then clears the leaf bit and every ancestor
summary bit on the path, one group of levels per capacity regime. -/
def __gstoreFdwReleaseRowId (arr : WordMem) (nrooms rowid : Nat) :
    Bool × WordMem :=
  if rowid < nrooms then
    if nrooms ≤ 2 ^ 8 then
      if wordAt arr (rowid >>> 6) &&& 2 ^ (rowid &&& 63) = 0 then (false, arr)
      else (true, clearWordBit arr (rowid >>> 6) (rowid &&& 63))
    else if nrooms ≤ 2 ^ 16 then
      if wordAt arr (4 + (rowid >>> 6)) &&& 2 ^ (rowid &&& 63) = 0 then (false, arr)
      else
        let a1 := clearWordBit arr (rowid >>> 14) ((rowid >>> 8) &&& 63)
        (true, clearWordBit a1 (4 + (rowid >>> 6)) (rowid &&& 63))
    else if nrooms ≤ 2 ^ 24 then
      if wordAt arr (4 + 1024 + (rowid >>> 6)) &&& 2 ^ (rowid &&& 63) = 0 then (false, arr)
      else
        let a1 := clearWordBit arr (rowid >>> 22) ((rowid >>> 16) &&& 63)
        let a2 := clearWordBit a1 (4 + (rowid >>> 14)) ((rowid >>> 8) &&& 63)
        (true, clearWordBit a2 (4 + 1024 + (rowid >>> 6)) (rowid &&& 63))
    else
      if wordAt arr (4 + 1024 + 262144 + (rowid >>> 6)) &&& 2 ^ (rowid &&& 63) = 0 then
        (false, arr)
      else
        let a1 := clearWordBit arr (rowid >>> 30) ((rowid >>> 24) &&& 63)
        let a2 := clearWordBit a1 (4 + (rowid >>> 22)) ((rowid >>> 16) &&& 63)
        let a3 := clearWordBit a2 (4 + 1024 + (rowid >>> 14)) ((rowid >>> 8) &&& 63)
        (true, clearWordBit a3 (4 + 1024 + 262144 + (rowid >>> 6)) (rowid &&& 63))
  else (false, arr)

/-! ## BaseStore and the redo log records

KDS_store_datum_column / KDS_fetch_datum_column and the GstoreTxLog struct
declarations live in headers outside this repository snapshot, so the
per-field store layer is modelled from the spec: the spec describes
fetch(rowid, col) / store(rowid, col, value, isNull) as reading and writing
a single field, so BaseStore is modelled at field granularity, a value per
(rowid, column) with None for SQL null, together with the per-row system
column and the out-of-line region bookkeeping the replay code manipulates
directly (usage, extra_hlength, has_varlena). -/

@[ext]
structure BaseStore where
  rows : Nat → Nat → Option Nat
  sys : Nat → GstoreFdwSysattr
  usage : Nat
  extraHLength : Nat
  hasVarlena : Bool
  nitems : Nat

/-- Modelled from the spec: a redo log record.  The on-disk GstoreTxLogRow
struct is declared in an external header; the record is self-describing
with a 32-bit tag and a total length, and carries the row-id, the writing
transaction and command id (from the embedded heap tuple header), the
column values of the embedded tuple, and, for UPDATE, the old row-id (from
t_ctid) and the column bitmap appended after the tuple.  A bitmap entry of
true marks a column the replay treats as not updated, following
__ApplyRedoLogUpdate (gstore_fdw.c:2493-2495).  Any other tag value is
represented by the unknown constructor. -/
inductive GstoreTxLog where
  | insert (length rowid xid cid : Nat) (vals : List (Option Nat))
  | update (length rowid oldid xid cid : Nat) (vals : List (Option Nat)) (mask : List Bool)
  | delete (length rowid xid cid : Nat)
  | commit (length : Nat)
  | unknown (tag length : Nat)
deriving DecidableEq

/-- Length field of a record (every variant carries one). -/
def txLogLength : GstoreTxLog → Nat
  | .insert len _ _ _ _ => len
  | .update len _ _ _ _ _ _ => len
  | .delete len _ _ _ => len
  | .commit len => len
  | .unknown _ len => len

/-- Tag test of the replay loop: INSERT, UPDATE, DELETE or COMMIT. -/
def isKnownTag : GstoreTxLog → Bool
  | .unknown _ _ => false
  | _ => true

/-- Modelled from the spec: offsetof(GstoreTxLogCommon, data), the header
size a record must have before its tag and length can be read (type,
length, timestamp). -/
def txLogCommonDataOfs : Nat := 16

/-- Modelled from the spec: offsetof(GstoreTxLogRow, htup), the record
header preceding the embedded heap tuple (type, length, timestamp, rowid,
xid). -/
def gstoreTxLogRowHtupOfs : Nat := 24

/-- PAGE_ALIGN for the 4KiB pages the source aligns file sizes to. -/
def pageAlign (n : Nat) : Nat := ((n + 4095) / 4096) * 4096

/-- __ApplyRedoLogInsert (gstore_fdw.c:2423-2454): store every column of
the logged tuple into the row, then overwrite the system column with
xmin := the logged xid, xmax := InvalidTransactionId, cid := the logged
cid. -/
def __ApplyRedoLogInsert (bs : BaseStore) (rowid xid cid : Nat)
    (vals : List (Option Nat)) : BaseStore :=
  { bs with
    rows := fun r c =>
      if r = rowid ∧ c < vals.length then vals.getD c none else bs.rows r c
    sys := fun r =>
      if r = rowid then ⟨xid, InvalidTransactionId, cid⟩ else bs.sys r }

/-- __ApplyRedoLogUpdate (gstore_fdw.c:2459-2521): store the logged values
into the record row-id, fetching a column from the old row-id instead when
its bitmap entry marks it not updated; then set xmax and cid on the system
column of the record row-id and xmin and cid on the system column of the
old row-id, in that order (the source fetches the system attribute it
labels old from r_log-rowid and the one it labels new from the old row-id,
so the model keeps exactly that assignment). -/
def __ApplyRedoLogUpdate (bs : BaseStore) (rowid oldid xid cid : Nat)
    (vals : List (Option Nat)) (mask : List Bool) : BaseStore :=
  let rows1 : Nat → Nat → Option Nat := fun r c =>
    if r = rowid ∧ c < vals.length then
      if mask.getD c false then bs.rows oldid c else vals.getD c none
    else bs.rows r c
  let sysA : Nat → GstoreFdwSysattr := fun r =>
    if r = rowid then { bs.sys rowid with xmax := xid, cid := cid } else bs.sys r
  let sysB : Nat → GstoreFdwSysattr := fun r =>
    if r = oldid then { sysA oldid with xmin := xid, cid := cid } else sysA r
  { bs with rows := rows1, sys := sysB }

/-- __ApplyRedoLogDelete (gstore_fdw.c:2526-2541): set xmax and cid of the
system column from the logged tuple header. -/
def __ApplyRedoLogDelete (bs : BaseStore) (rowid xid cid : Nat) : BaseStore :=
  { bs with
    sys := fun r =>
      if r = rowid then { bs.sys rowid with xmax := xid, cid := cid } else bs.sys r }

/-- Extra-buffer expansion on demand (gstore_fdw.c:2592-2643): for INSERT
and UPDATE records on a store with variable-length columns, if the record
payload plus the current usage would overflow the out-of-line region, the
file is grown (by the payload plus a 64MiB slack, page aligned) before the
record is applied.  The exact on-disk length bookkeeping goes through the
mmap layer; the model keeps the resulting region length. -/
def expandExtraOnDemand (bs : BaseStore) (recLength : Nat) : BaseStore :=
  if bs.hasVarlena then
    let sz := recLength - gstoreTxLogRowHtupOfs + bs.usage
    if sz > bs.extraHLength then
      { bs with extraHLength := pageAlign (sz + 67108864) }
    else bs
  else bs

/-- One iteration body of the replay loop: expand the extra region first
(INSERT and UPDATE only), then apply the record.  COMMIT records are
skipped; the unknown case is never applied by the loop. -/
def applyTxLog (bs : BaseStore) (r : GstoreTxLog) : BaseStore :=
  match r with
  | .insert len rowid xid cid vals =>
      __ApplyRedoLogInsert (expandExtraOnDemand bs len) rowid xid cid vals
  | .update len rowid oldid xid cid vals mask =>
      __ApplyRedoLogUpdate (expandExtraOnDemand bs len) rowid oldid xid cid vals mask
  | .delete _ rowid xid cid => __ApplyRedoLogDelete bs rowid xid cid
  | .commit _ => bs
  | .unknown _ _ => bs

/-- Replay walk of __ApplyRedoLogMain (gstore_fdw.c:2579-2665): starting
from the checkpoint offset, while a record header fits below the mapped
size, apply INSERT, UPDATE and DELETE records in order, step over COMMIT
records, and stop at the first record whose tag is none of the four,
returning the reached position and the resulting store.  The log buffer is
a total map from byte offset to the record that parses there.  Fuel bounds
the number of iterations; any terminating C execution is reproduced by a
large enough fuel. -/
def replayLoop (log : Nat → GstoreTxLog) (size : Nat) :
    Nat → Nat → BaseStore → Nat × BaseStore
  | 0, pos, bs => (pos, bs)
  | fuel + 1, pos, bs =>
    if pos + txLogCommonDataOfs < size then
      let r := log pos
      if isKnownTag r then
        replayLoop log size fuel (pos + txLogLength r) (applyTxLog bs r)
      else (pos, bs)
    else (pos, bs)

/-- __rebuildRowIdMap (gstore_fdw.c:2543-2548).  The body of the source
function is only a TODO comment; it changes nothing. -/
def __rebuildRowIdMap (rowidMap : WordMem) : WordMem := rowidMap

/-- __rebuildHashIndex (gstore_fdw.c:2550-2555).  The body of the source
function is only a TODO comment; it changes nothing. -/
def __rebuildHashIndex (hashSlots : Nat → Nat) : Nat → Nat := hashSlots

/-- __ApplyRedoLogMain (gstore_fdw.c:2560-2685), the dirty-recovery path:
full replay from the checkpoint, then the two index rebuild calls.
Returns the final log position, the replayed store, and the RowIdMap and
hash slot array after the rebuild calls. -/
def __ApplyRedoLogMain (bs : BaseStore) (rowidMap : WordMem)
    (hashSlots : Nat → Nat) (log : Nat → GstoreTxLog) (size checkpoint fuel : Nat) :
    Nat × BaseStore × WordMem × (Nat → Nat) :=
  let res := replayLoop log size fuel checkpoint bs
  (res.1, res.2, __rebuildRowIdMap rowidMap, __rebuildHashIndex hashSlots)

/-! ## RedoLog append and rotation -/

/-- MAXALIGN(offsetof(GpuStoreRedoLogHead, data)): signature (8 bytes),
timestamp (8), checkpoint_offset (8), already 8-aligned. -/
def redoLogHeadDataOfs : Nat := 24

/-- Abstract state of the logical redo log: the identity of the current
file, the checkpoint offset its header carries, the shared atomic write
position, the set of appended records as (file, offset, length) triples,
the retired (renamed away) old files, and the mapping revision. -/
structure RedoLogState where
  fileId : Nat
  checkpointOffset : Nat
  pos : Nat
  records : List (Nat × Nat × Nat)
  retired : List Nat
  revision : Nat
deriving DecidableEq

/-- __gstoreFdwSwitchRedoLog (gstore_fdw.c:954-1036): create a fresh file
whose header has checkpoint_offset = MAXALIGN(offsetof(head, data)) (the
end of the header, meaning nothing pending), rename the old file away,
rename the new file onto the logical log path, pick a fresh mapping
revision distinct from the old one (the source draws random numbers until
distinct; the model uses the successor), and reset the shared write
position to the end of the header. -/
def __gstoreFdwSwitchRedoLog (st : RedoLogState) : RedoLogState :=
  { fileId := st.fileId + 1
    checkpointOffset := redoLogHeadDataOfs
    pos := redoLogHeadDataOfs
    records := st.records
    retired := st.fileId :: st.retired
    revision := st.revision + 1 }

/-- Reservation loop of gstoreFdwAppendRedoLog (gstore_fdw.c:1092-1111),
serialised: if the tentative new position overflows the limit, first
escalate from the shared to the exclusive mapping lock and retry, then
(already exclusive) switch the redo log and retry; otherwise reserve
[pos, pos + len) in the current file and write the record there.  Fuel
bounds the retries; none is the case in which the C loop never exits
(a record that does not fit even an empty file rotates forever). -/
def appendLoop (limit len : Nat) : Nat → Bool → RedoLogState → Option RedoLogState
  | 0, _, _ => none
  | fuel + 1, hasExclusiveLock, st =>
    if st.pos + len > limit then
      if hasExclusiveLock then
        appendLoop limit len fuel true (__gstoreFdwSwitchRedoLog st)
      else
        appendLoop limit len fuel true st
    else
      some { st with
             pos := st.pos + len
             records := (st.fileId, st.pos, len) :: st.records }

/-- gstoreFdwAppendRedoLog (gstore_fdw.c:1038-1122), entered with the
shared lock and no exclusive lock.  Three iterations cover every
terminating execution: overflow under the shared lock, overflow again
under the exclusive lock with a switch, then a successful reservation. -/
def gstoreFdwAppendRedoLog (limit len : Nat) (st : RedoLogState) :
    Option RedoLogState :=
  appendLoop limit len 3 false st

/-! ## HashIndex primary-key lookup -/

/-- Chain walk of lookupGpuStorePrimaryKey (gstore_fdw.c:728-748): follow
the per-row next pointers until UINT_MAX, returning UINT_MAX immediately
if a pointer is at or beyond nrooms (index corruption guard), and stopping
at the first row whose non-null key equals the probe key.  keyAt models
KDS_fetch_datum_column on the key column combined with the key equality
operator through the concrete key values.  Fuel bounds the walk; a cyclic
chain would keep the C loop spinning, which fuel exhaustion (none)
represents. -/
def __lookupChain (nrooms : Nat) (rowmap : Nat → Nat) (keyAt : Nat → Option Nat)
    (key : Nat) : Nat → Nat → Option Nat
  | 0, _ => none
  | fuel + 1, rowid =>
    if rowid = UINTMAX32 then some UINTMAX32
    else if rowid ≥ nrooms then some UINTMAX32
    else
      match keyAt rowid with
      | some v =>
          if v = key then some rowid
          else __lookupChain nrooms rowmap keyAt key fuel (rowmap rowid)
      | none => __lookupChain nrooms rowmap keyAt key fuel (rowmap rowid)

/-- lookupGpuStorePrimaryKey (gstore_fdw.c:700-752): pick the chain head
from the hash slot (or continue from last_rowid when resuming, guarding
last_rowid against the room count), then walk the chain. -/
def lookupGpuStorePrimaryKey (nrooms nslots : Nat) (slots : Nat → Nat)
    (rowmap : Nat → Nat) (keyAt : Nat → Option Nat) (hashOfKey key lastRowid fuel : Nat) :
    Option Nat :=
  let hindex := hashOfKey % nslots
  let rowid0 :=
    if lastRowid = UINTMAX32 then slots hindex
    else if lastRowid < nrooms then rowmap lastRowid
    else UINTMAX32
  __lookupChain nrooms rowmap keyAt key fuel rowid0

/-! ## Insert executor -/

/-- GstoreExecForeignInsert (gstore_fdw.c:1218-1287): allocate the next
row-id (threading next_rowid = rowid + 1), raise the capacity error when
the allocator hands back a value at or beyond nrooms, otherwise check the
slot with the write-visibility oracle under the row lock (which caches the
resolved status back into the system column) and retry on a slot that is
still live; on success store the tuple values, write the system column
from the current xid and cid, and raise nitems.  The redo-log append that
precedes the store is the separate log subsystem modelled above and does
not touch the base store or the allocator, so it is elided here.  Errors
are Except.error (the elog(ERROR) capacity path); the outer Option is the
fuel bound on the retry loop. -/
def GstoreExecForeignInsert (env : TxEnv) (nrooms oldestXmin xid cid : Nat)
    (vals : List (Option Nat)) :
    Nat → Nat → WordMem → BaseStore → Option (Except Unit (Nat × WordMem × BaseStore))
  | 0, _, _, _ => none
  | fuel + 1, nextRowid, arr, bs =>
    let res := gstoreFdwAllocateRowId arr nrooms nextRowid
    let rowid := res.1
    let arr1 := res.2
    if rowid ≥ nrooms then some (Except.error ())
    else
      let vis := gstoreCheckVisibilityForWrite env (bs.sys rowid) oldestXmin
      let bs1 := { bs with sys := fun r => if r = rowid then vis.2 else bs.sys r }
      if vis.1 then
        some (Except.ok (rowid, arr1,
          { bs1 with
            rows := fun r c =>
              if r = rowid ∧ c < vals.length then vals.getD c none else bs1.rows r c
            sys := fun r =>
              if r = rowid then ⟨xid, InvalidTransactionId, cid⟩ else bs1.sys r
            nitems := max bs1.nitems (rowid + 1) }))
      else
        GstoreExecForeignInsert env nrooms oldestXmin xid cid vals fuel (rowid + 1) arr1 bs1

/-! ## Bookkeeping for stating the replay theorem -/

/-- A list of records laid out consecutively in the log buffer from a
starting offset: each record parses at its position, carries a known tag,
and its header fits below the mapped size. -/
def logLaidOut (log : Nat → GstoreTxLog) (size : Nat) : Nat → List GstoreTxLog → Bool
  | _, [] => true
  | pos, r :: rs =>
      log pos == r && isKnownTag r &&
      decide (pos + txLogCommonDataOfs < size) &&
      logLaidOut log size (pos + txLogLength r) rs

/-- Offset one past a consecutively laid out list of records. -/
def logEndPos : Nat → List GstoreTxLog → Nat
  | pos, [] => pos
  | pos, r :: rs => logEndPos (pos + txLogLength r) rs

/-! ## Concrete fixtures used by the per-claim theorems -/

/-- Oracle for C2: transaction 100 has committed; nothing else is known. -/
def envC2 : TxEnv :=
  ⟨fun _ => false, fun _ => false, fun x => decide (x = 100)⟩

/-- Row for C2: insert already frozen, deleted by transaction 100. -/
def sattrC2 : GstoreFdwSysattr := ⟨FrozenTransactionId, 100, 7⟩

/-- Oracle for C3: transaction 7 is the current transaction, transaction
100 has committed, and every other id (in particular 200) is neither
current, in progress, nor committed, hence aborted or crashed. -/
def envC3 : TxEnv :=
  ⟨fun x => decide (x = 7), fun _ => false, fun x => decide (x = 100)⟩

/-- Empty triple-level RowIdMap for C4 (capacity 65537). -/
def memC4 : WordMem := fun _ => 0

/-- Triple-level RowIdMap (capacity 65537) for C9 in which the leaf bitmap
marks every row-id in [0, 65537) allocated: leaf words are at
1028..2055, rows 0..65535 fill words 1028..2051 and row 65536 is bit 0 of
word 2052; the summary levels are left clear (a free state for them). -/
def arrC9 : WordMem :=
  fun i =>
    if i < 1028 then 0
    else if i < 2052 then allOnes64
    else if i = 2052 then 1
    else 0

/-- Base store for C9: no rows stored, all system columns empty. -/
def bsC9 : BaseStore := ⟨fun _ _ => none, fun _ => ⟨0, 0, 0⟩, 0, 0, false, 0⟩

/-- Oracle for C9: no transaction is current, in progress or committed. -/
def envC9 : TxEnv := ⟨fun _ => false, fun _ => false, fun _ => false⟩

/-- Base store before recovery for C1: nothing stored. -/
def bsC1 : BaseStore := ⟨fun _ _ => none, fun _ => ⟨0, 0, 0⟩, 0, 0, false, 0⟩

/-- Redo log for C1: one INSERT of row 0 by transaction 100 at the
checkpoint offset 24, followed by an unrecognised tag. -/
def logC1 : Nat → GstoreTxLog :=
  fun pos => if pos = 24 then .insert 48 0 100 0 [some 7] else .unknown 0 0

/-- Base store for the C6 witness. -/
def bsC6 : BaseStore := ⟨fun _ _ => none, fun _ => ⟨0, 0, 0⟩, 0, 0, false, 0⟩

/-- Record list for the C6 witness: INSERT, COMMIT, DELETE. -/
def rsC6 : List GstoreTxLog :=
  [.insert 40 1 90 0 [some 5], .commit 16, .delete 40 1 91 1]

/-- Log buffer for the C6 witness: the three records at offsets 24, 64 and
80, and an unrecognised tag everywhere else (in particular at 120). -/
def logC6 : Nat → GstoreTxLog :=
  fun pos =>
    if pos = 24 then .insert 40 1 90 0 [some 5]
    else if pos = 64 then .commit 16
    else if pos = 80 then .delete 40 1 91 1
    else .unknown 7 0

/-- Base store for C7: row 0 holds value 10 in column 0. -/
def bsC7 : BaseStore :=
  ⟨fun r c => if r = 0 ∧ c = 0 then some 10 else none,
   fun _ => ⟨FrozenTransactionId, 0, 0⟩, 0, 0, false, 0⟩

/-- Log segment for C7: an UPDATE moving row 0 to row 1 whose only column
is marked not updated (so replay copies it across from row 0), followed by
an INSERT that reuses row 0 with value 20; then an unrecognised tag. -/
def logC7 : Nat → GstoreTxLog :=
  fun pos =>
    if pos = 24 then .update 48 1 0 50 0 [some 99] [true]
    else if pos = 72 then .insert 48 0 60 0 [some 20]
    else .unknown 0 0

/-- Replay of the C7 segment from the recorded checkpoint 24 over a store. -/
def replayC7 (bs : BaseStore) : BaseStore :=
  (replayLoop logC7 200 3 24 bs).2

/-- Redo log state for the C5 witness: current file 0 with 90 of 100 bytes
used. -/
def stC5 : RedoLogState := ⟨0, 24, 90, [], [], 0⟩

/-- Double-level RowIdMap (capacity 1000) for the C8 witness: leaf bit of
row 9 set (word 4, bit 9) and its summary bit set (word 0, bit 0). -/
def memC8 : WordMem :=
  fun i => if i = 0 then 1 else if i = 4 then 2 ^ 9 else 0

/-- Hash index fixture for the C10 witness: every chain head points at row
150, beyond the capacity of 100. -/
def slotsC10 : Nat → Nat := fun _ => 150

/-- Next-pointer array for the C10 witness. -/
def rowmapC10 : Nat → Nat := fun _ => UINTMAX32

/-- Key column for the C10 witness. -/
def keyAtC10 : Nat → Option Nat := fun r => if r = 5 then some 42 else none

/-- Dirty-path recovery of the C1 scenario: replay the single-INSERT log
from checkpoint 24 over the empty store with an empty single-level
RowIdMap (capacity 256) and empty hash slots. -/
def recoveredC1 : Nat × BaseStore × WordMem × (Nat → Nat) :=
  __ApplyRedoLogMain bsC1 (fun _ => 0) (fun _ => UINTMAX32) logC1 100 24 2

/-- Allocation on the empty triple-level map of C4. -/
def allocC4 : Nat × WordMem := gstoreFdwAllocateRowId memC4 65537 0

/-- The C9 insert attempt: next_rowid 65280 against the fully allocated
map arrC9. -/
def insertC9 : Option (Except Unit (Nat × WordMem × BaseStore)) :=
  GstoreExecForeignInsert envC9 65537 3 500 1 [some 42] 2 65280 arrC9 bsC9

/-- Row-id the C9 insert ended up writing, if it succeeded. -/
def insertedRowidC9 : Option Nat :=
  insertC9.bind (fun e => match e with | .ok (r, _, _) => some r | .error _ => none)

/-- Whether the C9 insert raised the capacity-exhausted error. -/
def insertErroredC9 : Bool :=
  match insertC9 with | some (.error _) => true | _ => false

/-- Column 0 of row 65281 in the base store after the C9 insert. -/
def insertedValC9 : Option (Option Nat) :=
  insertC9.bind (fun e => match e with | .ok (_, _, bs) => some (bs.rows 65281 0) | _ => none)

/-- Word index and bit index of every ancestor summary bit of a row-id in
the RowIdMap, per capacity regime, following the clear sequence of
__gstoreFdwReleaseRowId from the top level down. -/
def summaryPath (nrooms rowid : Nat) : List (Nat × Nat) :=
  if nrooms ≤ 2 ^ 8 then []
  else if nrooms ≤ 2 ^ 16 then [(rowid >>> 14, (rowid >>> 8) % 64)]
  else if nrooms ≤ 2 ^ 24 then
    [(rowid >>> 22, (rowid >>> 16) % 64), (4 + (rowid >>> 14), (rowid >>> 8) % 64)]
  else
    [(rowid >>> 30, (rowid >>> 24) % 64), (4 + (rowid >>> 22), (rowid >>> 16) % 64),
     (4 + 1024 + (rowid >>> 14), (rowid >>> 8) % 64)]

/-! ## Theorems -/

/-- Bitwise helper: x &&& 63 is reduction modulo 64. -/
theorem land_63_eq_mod (x : Nat) : x &&& 63 = x % 64 := by
  simpa using Nat.and_pow_two_sub_one_eq_mod x 6

/-- Bitwise helper: masking with a single bit is zero exactly when the bit
is clear. -/
theorem and_two_pow_eq_zero_iff (w b : Nat) :
    w &&& 2 ^ b = 0 ↔ w.testBit b = false := by
  rw [Nat.and_two_pow]
  cases h : w.testBit b <;> simp [(Nat.two_pow_pos b).ne']

/-- Bitwise helper: the all-ones word has exactly its low 64 bits set. -/
theorem testBit_allOnes64 (j : Nat) : allOnes64.testBit j = decide (j < 64) := by
  rw [allOnes64, Nat.testBit_two_pow_sub_one]

/-- Bitwise helper: clearing bit b of word i clears that bit. -/
theorem clearWordBit_self (arr : WordMem) (i b : Nat) (hb : b < 64) :
    (clearWordBit arr i b i).testBit b = false := by
  simp [clearWordBit, setWord, wordAt, testBit_allOnes64, Nat.testBit_two_pow, hb]

/-- Bitwise helper: clearing bit b of word i keeps every other bit below
64 of that word. -/
theorem clearWordBit_self_other (arr : WordMem) (i b j : Nat) (hj : j < 64)
    (hne : j ≠ b) : (clearWordBit arr i b i).testBit j = (arr i).testBit j := by
  simp [clearWordBit, setWord, wordAt, testBit_allOnes64, Nat.testBit_two_pow, hj,
    Ne.symm hne]

/-- Bitwise helper: clearing a bit of word i leaves every other word
untouched. -/
theorem clearWordBit_other (arr : WordMem) (i b j : Nat) (hne : j ≠ i) :
    clearWordBit arr i b j = arr j := by
  simp [clearWordBit, setWord, wordAt, hne]

/-- C2: the write-visibility check reports the slot of a row deleted by
committed transaction 100 as reclaimable (true) against the horizon
oldestActiveXid = 50, although TransactionIdPrecedes(100, 50) is false, so
the deleter did not commit strictly before the horizon; the claim requires
the slot not to be reclaimable then.  The source overwrites xmax with
InvalidTransactionId in the committed-deleter branch
(gstore_fdw.c:588-589), so the subsequent horizon test
(gstore_fdw.c:601) compares InvalidTransactionId instead of the deleter
and always passes, contradicting the HeapTupleSatisfiesVacuum logic the
function quotes. -/
theorem writeVisibility_ignores_horizon :
    (gstoreCheckVisibilityForWrite envC2 sattrC2 50).1 = true ∧
    transactionIdPrecedes sattrC2.xmax 50 = false ∧
    envC2.didCommit sattrC2.xmax = true := by decide

/-- C3, counterexample: the claim asserts a reader whose snapshot was
taken before transaction A committed never sees the row A inserted.  The
checker takes no snapshot content at all (only the command id), so in a
state where A = 100 has committed by check time it reports the row visible
for every reader, in particular one whose snapshot predates the commit.
The claim also asserts a row stays visible after its deleter aborted, yet
for an aborted deleter (200: not current, not in progress, not committed)
the check falls through to false the first time it runs. -/
theorem readVisibility_snapshot_counterexample :
    (__gstoreCheckVisibilityForRead envC3 ⟨100, InvalidTransactionId, 0⟩ 5).1 = true ∧
    envC3.didCommit 100 = true ∧
    (__gstoreCheckVisibilityForRead envC3 ⟨FrozenTransactionId, 200, 0⟩ 5).1 = false ∧
    envC3.didCommit 200 = false ∧ envC3.inProgress 200 = false ∧
    envC3.isCurrent 200 = false := by decide

/-- C3, amended: read visibility is resolved against live transaction
status at check time, not snapshot contents.  A row whose inserting
transaction has committed by check time (and has no deleter) is visible to
every reader regardless of its snapshot; a transaction sees its own
insert made at an earlier command id; and a row whose deleter aborted is
reported invisible by the first check that observes the abort, which also
caches xmax := InvalidTransactionId so that every later check reports the
row visible. -/
theorem readVisibility_amended (env : TxEnv) (s : GstoreFdwSysattr) (cid : Nat) :
    (s.xmin ≠ FrozenTransactionId → env.isCurrent s.xmin = false →
      env.didCommit s.xmin = true → s.xmax = InvalidTransactionId →
      (__gstoreCheckVisibilityForRead env s cid).1 = true)
    ∧
    (s.xmin ≠ FrozenTransactionId → env.isCurrent s.xmin = true → s.cid < cid →
      s.xmax = InvalidTransactionId →
      (__gstoreCheckVisibilityForRead env s cid).1 = true)
    ∧
    (s.xmin = FrozenTransactionId → s.xmax ≠ InvalidTransactionId →
      s.xmax ≠ FrozenTransactionId → env.isCurrent s.xmax = false →
      env.inProgress s.xmax = false → env.didCommit s.xmax = false →
      (__gstoreCheckVisibilityForRead env s cid).1 = false ∧
      (__gstoreCheckVisibilityForRead env s cid).2.xmax = InvalidTransactionId ∧
      (__gstoreCheckVisibilityForRead env
        (__gstoreCheckVisibilityForRead env s cid).2 cid).1 = true) := by
  refine ⟨?_, ?_, ?_⟩
  · intro h1 h2 h3 h4
    simp [__gstoreCheckVisibilityForRead, __gstoreCheckReadXmax, h1, h2, h3, h4]
  · intro h1 h2 h3 h4
    simp [__gstoreCheckVisibilityForRead, __gstoreCheckReadXmax, h1, h2, h4,
      Nat.not_le.mpr h3]
  · intro h1 h2 h3 h4 h5 h6
    simp [__gstoreCheckVisibilityForRead, __gstoreCheckReadXmax, h1, h2, h3, h4, h5, h6]

/-- C3, witness for the amended statement: instantiates its three parts at
concrete rows and the envC3 oracle. -/
theorem readVisibility_amended_witness :
    (__gstoreCheckVisibilityForRead envC3 ⟨100, 0, 0⟩ 5).1 = true ∧
    (__gstoreCheckVisibilityForRead envC3 ⟨7, 0, 3⟩ 5).1 = true ∧
    ((__gstoreCheckVisibilityForRead envC3 ⟨2, 200, 0⟩ 5).1 = false ∧
     (__gstoreCheckVisibilityForRead envC3 ⟨2, 200, 0⟩ 5).2.xmax = InvalidTransactionId ∧
     (__gstoreCheckVisibilityForRead envC3
        (__gstoreCheckVisibilityForRead envC3 ⟨2, 200, 0⟩ 5).2 5).1 = true) :=
  ⟨(readVisibility_amended envC3 ⟨100, 0, 0⟩ 5).1
      (by decide) (by decide) (by decide) (by decide),
   (readVisibility_amended envC3 ⟨7, 0, 3⟩ 5).2.1
      (by decide) (by decide) (by decide) (by decide),
   (readVisibility_amended envC3 ⟨2, 200, 0⟩ 5).2.2
      (by decide) (by decide) (by decide) (by decide) (by decide) (by decide)⟩

/-- C1: after the dirty-recovery path replays an INSERT of row 0 (whose
system column then carries xmin = 100, so the row is present in the
replayed BaseStore), the RowIdMap coming out of recovery is exactly the
map that went in (row 0 leaf bit still clear) and the hash slots are
exactly the slots that went in, because __rebuildRowIdMap and
__rebuildHashIndex are TODO stubs; the claim requires both to be rebuilt
to reflect the replayed rows. -/
theorem recovery_rebuild_unimplemented :
    (recoveredC1.2.1.sys 0).xmin = 100 ∧
    recoveredC1.2.2.1 = (fun _ => 0) ∧
    leafBitSet recoveredC1.2.2.1 256 0 = false ∧
    recoveredC1.2.2.2 = (fun _ => UINTMAX32) :=
  ⟨by decide, rfl, by decide, rfl⟩

set_option maxRecDepth 40000 in
/-- C4: on an empty triple-level map (capacity 65537), allocate(0) returns
row-id 0, yet the leaf bit of row 0 in the RowIdMap layout (word 1028,
shared by gstoreFdwRowIdMapSize and __gstoreFdwReleaseRowId) stays clear;
the bit lands in word 1032 instead, one 4-word node too far, because the
allocator computes the next-level offsets 4 + (4 << 8) and
4 + (4 << 8) + (4 << 16) relative to a base pointer that has already been
advanced past the previous levels.  Consequently an immediate release of
the returned row-id reports it as not allocated.  The claim requires every
successful allocate to set the leaf bit of the returned row-id before
returning. -/
theorem allocate_leaves_leaf_bit_clear :
    allocC4.1 = 0 ∧
    leafBitSet allocC4.2 65537 0 = false ∧
    allocC4.2 1032 = 1 ∧
    (__gstoreFdwReleaseRowId allocC4.2 65537 0).1 = false := by decide

set_option maxRecDepth 40000 in
/-- C9: on a triple-level map in which every row-id of [0, 65537) is
allocated in the leaf bitmap (so no free row-id exists at or above the
requested minimum 65280), the allocator still returns row-id 65281 instead
of the no-room sentinel, because it reads the leaf words displaced by one
node (see the C4 addressing slip); the insert path therefore raises no
capacity error and stores the tuple into the already-allocated row 65281.
The claim requires allocate to return no-room and the insert to raise the
capacity-exhausted error without modifying the BaseStore. -/
theorem allocate_misses_capacity_exhaustion :
    (List.range 257).all (fun j => leafBitSet arrC9 65537 (65280 + j)) = true ∧
    (gstoreFdwAllocateRowId arrC9 65537 65280).1 = 65281 ∧
    insertErroredC9 = false ∧
    insertedRowidC9 = some 65281 ∧
    insertedValC9 = some (some 42) := by decide

/-- C5: whenever the tentative new write position would exceed the
configured redo-log limit but the record fits a fresh file, the append
escalates to the exclusive lock, rotates, and the append lands in the new
file: the logical file is replaced by a successor whose header
checkpoint_offset is the end of the header (nothing pending), the old file
is retired, the shared write position is reset to the end of the header
and then advanced past the record, which is recorded in the new file at
the end of the header; all previously appended records are preserved and
the mapping revision changes. -/
theorem appendRedoLog_rotation (st : RedoLogState) (limit len : Nat)
    (hover : st.pos + len > limit) (hfit : redoLogHeadDataOfs + len ≤ limit) :
    gstoreFdwAppendRedoLog limit len st =
      some { fileId := st.fileId + 1
             checkpointOffset := redoLogHeadDataOfs
             pos := redoLogHeadDataOfs + len
             records := (st.fileId + 1, redoLogHeadDataOfs, len) :: st.records
             retired := st.fileId :: st.retired
             revision := st.revision + 1 } := by
  simp [gstoreFdwAppendRedoLog, appendLoop, __gstoreFdwSwitchRedoLog, hover,
    Nat.not_lt.mpr hfit]

/-- C5, witness: a concrete overflowing append (position 90 of limit 100,
record of 20 bytes) rotates from file 0 to file 1 and lands at offset 24. -/
theorem appendRedoLog_rotation_witness :
    stC5.pos + 20 > 100 ∧ redoLogHeadDataOfs + 20 ≤ 100 ∧
    gstoreFdwAppendRedoLog 100 20 stC5 =
      some { fileId := stC5.fileId + 1
             checkpointOffset := redoLogHeadDataOfs
             pos := redoLogHeadDataOfs + 20
             records := (stC5.fileId + 1, redoLogHeadDataOfs, 20) :: stC5.records
             retired := stC5.fileId :: stC5.retired
             revision := stC5.revision + 1 } :=
  ⟨by decide, by decide, appendRedoLog_rotation stC5 100 20 (by decide) (by decide)⟩

/-- C6: over any log buffer in which a list of records with known tags is
laid out consecutively from a starting offset, followed by a record with
an unrecognised tag whose header still fits below the mapped size, the
replay walk applies exactly those records in log order (each step
expanding the out-of-line region before applying, by definition of
applyTxLog, and stepping over COMMIT records without touching the store)
and terminates at the unrecognised record, returning its offset rather
than failing.  The fuel only needs to exceed the record count. -/
theorem replayLoop_applies_known_records
    (log : Nat → GstoreTxLog) (size : Nat) (rs : List GstoreTxLog) :
    ∀ (pos extra : Nat) (bs : BaseStore),
    logLaidOut log size pos rs = true →
    isKnownTag (log (logEndPos pos rs)) = false →
    logEndPos pos rs + txLogCommonDataOfs < size →
    replayLoop log size (rs.length + 1 + extra) pos bs =
      (logEndPos pos rs, rs.foldl applyTxLog bs) ∧
    ∀ (rowidMap : WordMem) (hashSlots : Nat → Nat),
      __ApplyRedoLogMain bs rowidMap hashSlots log size pos (rs.length + 1 + extra) =
        (logEndPos pos rs, rs.foldl applyTxLog bs, rowidMap, hashSlots) := by
  have main : ∀ (pos extra : Nat) (bs : BaseStore),
      logLaidOut log size pos rs = true →
      isKnownTag (log (logEndPos pos rs)) = false →
      logEndPos pos rs + txLogCommonDataOfs < size →
      replayLoop log size (rs.length + 1 + extra) pos bs =
        (logEndPos pos rs, rs.foldl applyTxLog bs) := ?_
  · intro pos extra bs h1 h2 h3
    refine ⟨main pos extra bs h1 h2 h3, fun rowidMap hashSlots => ?_⟩
    unfold __ApplyRedoLogMain __rebuildRowIdMap __rebuildHashIndex
    rw [main pos extra bs h1 h2 h3]
  induction rs with
  | nil =>
    intro pos extra bs _ hstop hfit
    have h1 : ([] : List GstoreTxLog).length + 1 + extra = extra + 1 := by
      simp [Nat.add_comm]
    rw [h1]
    simp only [logEndPos] at hstop hfit ⊢
    simp [replayLoop, hfit, hstop]
  | cons r rs ih =>
    intro pos extra bs hlay hstop hfit
    simp only [logLaidOut, Bool.and_eq_true, beq_iff_eq, decide_eq_true_eq] at hlay
    obtain ⟨⟨⟨hlog, hknown⟩, hhdr⟩, hrest⟩ := hlay
    have h1 : (r :: rs).length + 1 + extra = (rs.length + 1 + extra) + 1 := by
      simp [List.length_cons]; omega
    rw [h1]
    simp only [logEndPos] at hstop hfit ⊢
    simp only [replayLoop, if_pos hhdr, hlog, hknown, if_pos trivial, List.foldl_cons]
    exact ih (pos + txLogLength r) extra (applyTxLog bs r) hrest hstop hfit

/-- C6, witness: the three-record log of the fixtures (INSERT, COMMIT,
DELETE from offset 24, unrecognised tag at 120 inside a 200-byte mapping)
replays to position 120 and the fold of the three records. -/
theorem replayLoop_applies_known_records_witness :
    logLaidOut logC6 200 24 rsC6 = true ∧
    isKnownTag (logC6 (logEndPos 24 rsC6)) = false ∧
    logEndPos 24 rsC6 + txLogCommonDataOfs < 200 ∧
    replayLoop logC6 200 (rsC6.length + 1 + 0) 24 bsC6 =
      (logEndPos 24 rsC6, rsC6.foldl applyTxLog bsC6) ∧
    __ApplyRedoLogMain bsC6 (fun _ => 0) (fun _ => UINTMAX32) logC6 200 24
        (rsC6.length + 1 + 0) =
      (logEndPos 24 rsC6, rsC6.foldl applyTxLog bsC6, fun _ => 0, fun _ => UINTMAX32) :=
  ⟨by decide, by decide, by decide,
   (replayLoop_applies_known_records logC6 200 rsC6 24 0 bsC6
     (by decide) (by decide) (by decide)).1,
   (replayLoop_applies_known_records logC6 200 rsC6 24 0 bsC6
     (by decide) (by decide) (by decide)).2 (fun _ => 0) (fun _ => UINTMAX32)⟩

/-- C10, auxiliary: soundness of the chain walk.  Whatever the chain walk
returns is either the NotFound sentinel or an in-range row-id whose key
column holds the probe key; in particular an out-of-range pointer is never
dereferenced or returned. -/
theorem __lookupChain_sound (nrooms : Nat) (rowmap : Nat → Nat)
    (keyAt : Nat → Option Nat) (key : Nat) :
    ∀ (fuel start r : Nat),
    __lookupChain nrooms rowmap keyAt key fuel start = some r →
    r = UINTMAX32 ∨ (r < nrooms ∧ keyAt r = some key) := by
  intro fuel
  induction fuel with
  | zero => intro start r h; simp [__lookupChain] at h
  | succ fuel ih =>
    intro start r h
    rw [__lookupChain] at h
    by_cases h1 : start = UINTMAX32
    · rw [if_pos h1] at h
      exact Or.inl (Option.some.inj h).symm
    · rw [if_neg h1] at h
      by_cases h2 : start ≥ nrooms
      · rw [if_pos h2] at h
        exact Or.inl (Option.some.inj h).symm
      · rw [if_neg h2] at h
        cases hk : keyAt start with
        | none => rw [hk] at h; exact ih (rowmap start) r h
        | some v =>
          rw [hk] at h
          dsimp only at h
          by_cases hv : v = key
          · rw [if_pos hv] at h
            obtain rfl : start = r := Option.some.inj h
            exact Or.inr ⟨Nat.lt_of_not_le h2, by rw [hk, hv]⟩
          · rw [if_neg hv] at h
            exact ih (rowmap start) r h

/-- C10: a primary-key lookup over the hash index either misses (the
NotFound sentinel UINT_MAX) or returns an in-range row-id whose key equals
the probe key, for any contents of the slot array, the next-pointer array
and the key column; moreover a chain pointer at or beyond the capacity is
answered with NotFound directly instead of being followed, so a stale or
corrupt chain entry degrades a lookup to a miss and is never dereferenced. -/
theorem lookupPrimaryKey_corrupt_chain_safe
    (nrooms nslots : Nat) (slots rowmap : Nat → Nat) (keyAt : Nat → Option Nat)
    (hashOfKey key lastRowid fuel r : Nat) :
    (lookupGpuStorePrimaryKey nrooms nslots slots rowmap keyAt hashOfKey key
        lastRowid fuel = some r →
      r = UINTMAX32 ∨ (r < nrooms ∧ keyAt r = some key))
    ∧ (∀ badRowid, badRowid ≥ nrooms →
        __lookupChain nrooms rowmap keyAt key (fuel + 1) badRowid = some UINTMAX32) := by
  constructor
  · intro h
    exact __lookupChain_sound nrooms rowmap keyAt key fuel _ r h
  · intro badRowid hbad
    rw [__lookupChain]
    by_cases h1 : badRowid = UINTMAX32
    · rw [if_pos h1]
    · rw [if_neg h1, if_pos hbad]

/-- C10, witness: with every chain head pointing at row 150 of a
100-capacity store, a probe for key 42 misses, and walking from the
corrupt pointer 150 itself answers NotFound. -/
theorem lookupPrimaryKey_corrupt_chain_safe_witness :
    (UINTMAX32 = UINTMAX32 ∨ (UINTMAX32 < 100 ∧ keyAtC10 UINTMAX32 = some 42)) ∧
    __lookupChain 100 rowmapC10 keyAtC10 42 6 150 = some UINTMAX32 :=
  ⟨(lookupPrimaryKey_corrupt_chain_safe 100 10 slotsC10 rowmapC10 keyAtC10 3 42
      UINTMAX32 5 UINTMAX32).1 (by decide),
   (lookupPrimaryKey_corrupt_chain_safe 100 10 slotsC10 rowmapC10 keyAtC10 3 42
      UINTMAX32 5 UINTMAX32).2 150 (by decide)⟩

/-- C7, counterexample: replaying the two-record segment of logC7 twice
from the recorded checkpoint 24 does not reproduce the state of replaying
it once.  The UPDATE moves row 0 into row 1 with its only column marked
not updated, so replay copies the column across from row 0; the INSERT
that follows reuses row 0 with value 20.  One replay leaves 10 in row 1;
a second replay repeats the cross-row copy after row 0 was overwritten and
leaves 20, so double replay is not the identity on the once-replayed
store, refuting segment-level idempotence. -/
theorem replay_twice_differs :
    (replayC7 bsC7).rows 1 0 = some 10 ∧
    (replayC7 (replayC7 bsC7)).rows 1 0 = some 20 ∧
    replayC7 (replayC7 bsC7) ≠ replayC7 bsC7 := by
  refine ⟨by decide, by decide, fun h => ?_⟩
  have h1 : (replayC7 (replayC7 bsC7)).rows 1 0 = (replayC7 bsC7).rows 1 0 := by rw [h]
  rw [show (replayC7 (replayC7 bsC7)).rows 1 0 = some 20 from by decide,
      show (replayC7 bsC7).rows 1 0 = some 10 from by decide] at h1
  simp at h1

/-- Helper: expansion does not change usage. -/
theorem expandExtraOnDemand_usage (bs : BaseStore) (len : Nat) :
    (expandExtraOnDemand bs len).usage = bs.usage := by
  simp only [expandExtraOnDemand]; split_ifs <;> rfl

/-- Helper: expansion does not change the varlena flag. -/
theorem expandExtraOnDemand_hasVarlena (bs : BaseStore) (len : Nat) :
    (expandExtraOnDemand bs len).hasVarlena = bs.hasVarlena := by
  simp only [expandExtraOnDemand]; split_ifs <;> rfl

/-- Helper: page alignment never shrinks. -/
theorem pageAlign_ge (n : Nat) : n ≤ pageAlign n := by
  unfold pageAlign; omega

/-- Helper: expanding again, by the same record, a state that kept the
bookkeeping fields of a first expansion changes nothing. -/
theorem expandExtraOnDemand_stable (bs bs' : BaseStore) (len : Nat)
    (hU : bs'.usage = bs.usage)
    (hE : bs'.extraHLength = (expandExtraOnDemand bs len).extraHLength)
    (hV : bs'.hasVarlena = bs.hasVarlena) :
    expandExtraOnDemand bs' len = bs' := by
  simp only [expandExtraOnDemand]
  split_ifs with hv' hgrow'
  · exfalso
    have hbv : bs.hasVarlena = true := by rw [← hV]; exact hv'
    rw [hU, hE] at hgrow'
    by_cases hg : len - gstoreTxLogRowHtupOfs + bs.usage > bs.extraHLength
    · have hex : (expandExtraOnDemand bs len).extraHLength =
          pageAlign (len - gstoreTxLogRowHtupOfs + bs.usage + 67108864) := by
        simp [expandExtraOnDemand, hbv, hg]
      rw [hex] at hgrow'
      have := pageAlign_ge (len - gstoreTxLogRowHtupOfs + bs.usage + 67108864)
      omega
    · have hex : (expandExtraOnDemand bs len).extraHLength = bs.extraHLength := by
        simp [expandExtraOnDemand, hbv, hg]
      rw [hex] at hgrow'
      omega
  · rfl
  · rfl

/-- Helper: applying the same INSERT record twice equals applying it
once. -/
theorem __ApplyRedoLogInsert_idem (b : BaseStore) (rowid xid cid : Nat)
    (vals : List (Option Nat)) :
    __ApplyRedoLogInsert (__ApplyRedoLogInsert b rowid xid cid vals) rowid xid cid vals =
      __ApplyRedoLogInsert b rowid xid cid vals := by
  unfold __ApplyRedoLogInsert
  refine BaseStore.ext ?_ ?_ rfl rfl rfl rfl
  · funext r c
    by_cases h : r = rowid ∧ c < vals.length <;> simp [h]
  · funext r
    by_cases h : r = rowid <;> simp [h]

/-- Helper: applying the same DELETE record twice equals applying it
once. -/
theorem __ApplyRedoLogDelete_idem (b : BaseStore) (rowid xid cid : Nat) :
    __ApplyRedoLogDelete (__ApplyRedoLogDelete b rowid xid cid) rowid xid cid =
      __ApplyRedoLogDelete b rowid xid cid := by
  unfold __ApplyRedoLogDelete
  refine BaseStore.ext rfl ?_ rfl rfl rfl rfl
  funext r
  by_cases h : r = rowid <;> simp [h]

/-- Helper: applying the same UPDATE record twice equals applying it
once: unchanged columns are re-copied from the old row, whose user columns
the first application did not touch (also when the old and new row-id
coincide), and the system column writes are absorbing. -/
theorem __ApplyRedoLogUpdate_idem (b : BaseStore) (rowid oldid xid cid : Nat)
    (vals : List (Option Nat)) (mask : List Bool) :
    __ApplyRedoLogUpdate (__ApplyRedoLogUpdate b rowid oldid xid cid vals mask)
        rowid oldid xid cid vals mask =
      __ApplyRedoLogUpdate b rowid oldid xid cid vals mask := by
  unfold __ApplyRedoLogUpdate
  refine BaseStore.ext ?_ ?_ rfl rfl rfl rfl
  · funext r c
    dsimp only
    by_cases h : r = rowid ∧ c < vals.length
    · simp only [if_pos h]
      by_cases hm : mask.getD c false = true
      · simp only [if_pos hm]
        by_cases ho : oldid = rowid ∧ c < vals.length
        · simp only [if_pos ho, if_pos hm]
        · simp only [if_neg ho]
      · simp only [if_neg hm]
    · simp only [if_neg h]
  · funext r
    dsimp only
    by_cases ho : oldid = rowid
    · subst ho
      by_cases h : r = oldid <;> simp [h]
    · by_cases h1 : r = oldid
      · subst h1
        simp [ho, Ne.symm ho]
      · by_cases h2 : r = rowid
        · subst h2
          simp [h1, ho, Ne.symm ho]
        · simp [h1, h2]

/-- C7, amended: replay of each individual record is idempotent at the
field level of the BaseStore: applying any single redo record twice in a
row, through the same expand-then-apply step the replay loop uses, yields
exactly the state of applying it once, for INSERT, UPDATE (with its
column bitmap and cross-row copy) and DELETE, as well as the skipped
COMMIT and unknown records. -/
theorem applyTxLog_idempotent (bs : BaseStore) (r : GstoreTxLog) :
    applyTxLog (applyTxLog bs r) r = applyTxLog bs r := by
  cases r with
  | insert len rowid xid cid vals =>
    have hA : expandExtraOnDemand
        (__ApplyRedoLogInsert (expandExtraOnDemand bs len) rowid xid cid vals) len =
        __ApplyRedoLogInsert (expandExtraOnDemand bs len) rowid xid cid vals :=
      expandExtraOnDemand_stable bs _ len
        (by simp [__ApplyRedoLogInsert, expandExtraOnDemand_usage])
        (by simp [__ApplyRedoLogInsert])
        (by simp [__ApplyRedoLogInsert, expandExtraOnDemand_hasVarlena])
    simp only [applyTxLog, hA]
    exact __ApplyRedoLogInsert_idem _ rowid xid cid vals
  | update len rowid oldid xid cid vals mask =>
    have hA : expandExtraOnDemand
        (__ApplyRedoLogUpdate (expandExtraOnDemand bs len) rowid oldid xid cid vals mask)
          len =
        __ApplyRedoLogUpdate (expandExtraOnDemand bs len) rowid oldid xid cid vals mask :=
      expandExtraOnDemand_stable bs _ len
        (by simp [__ApplyRedoLogUpdate, expandExtraOnDemand_usage])
        (by simp [__ApplyRedoLogUpdate])
        (by simp [__ApplyRedoLogUpdate, expandExtraOnDemand_hasVarlena])
    simp only [applyTxLog, hA]
    exact __ApplyRedoLogUpdate_idem _ rowid oldid xid cid vals mask
  | delete len rowid xid cid =>
    simp only [applyTxLog]
    exact __ApplyRedoLogDelete_idem bs rowid xid cid
  | commit len => rfl
  | unknown tag len => rfl

/-- Bitwise helper: clearing any bit never sets another: a clear bit stays
clear through clearWordBit, in every word. -/
theorem clearWordBit_preserves_false (arr : WordMem) (i b j k : Nat)
    (h : (arr j).testBit k = false) :
    (clearWordBit arr i b j).testBit k = false := by
  by_cases hj : j = i
  · subst hj
    simp [clearWordBit, setWord, wordAt, h]
  · rw [clearWordBit_other arr i b j hj]
    exact h

/-- C8: releasing an in-range row-id whose leaf bit is set returns true,
clears the leaf bit, and unconditionally clears every ancestor summary bit
on the path from the root to the leaf; releasing an out-of-range row-id,
or one whose leaf bit is already clear (a double release), returns false
and leaves the bitmap completely unchanged.  Holds for all four capacity
regimes and arbitrary map contents. -/
theorem releaseRowId_clears_path (arr : WordMem) (nrooms rowid : Nat) :
    (rowid < nrooms → leafBitSet arr nrooms rowid = true →
      (__gstoreFdwReleaseRowId arr nrooms rowid).1 = true ∧
      leafBitSet (__gstoreFdwReleaseRowId arr nrooms rowid).2 nrooms rowid = false ∧
      ∀ p ∈ summaryPath nrooms rowid,
        ((__gstoreFdwReleaseRowId arr nrooms rowid).2 p.1).testBit p.2 = false)
    ∧ (¬ (rowid < nrooms ∧ leafBitSet arr nrooms rowid = true) →
      (__gstoreFdwReleaseRowId arr nrooms rowid).1 = false ∧
      (__gstoreFdwReleaseRowId arr nrooms rowid).2 = arr) := by
  have hmod : rowid % 64 < 64 := Nat.mod_lt _ (by norm_num)
  have hmod8 : (rowid >>> 8) % 64 < 64 := Nat.mod_lt _ (by norm_num)
  have hmod16 : (rowid >>> 16) % 64 < 64 := Nat.mod_lt _ (by norm_num)
  have hmod24 : (rowid >>> 24) % 64 < 64 := Nat.mod_lt _ (by norm_num)
  constructor
  · intro hlt hset
    unfold __gstoreFdwReleaseRowId
    rw [if_pos hlt]
    unfold leafBitSet wordAt at hset
    by_cases h8 : nrooms ≤ 2 ^ 8
    · rw [if_pos h8]
      rw [show rowIdMapLeafBase nrooms = 0 from by unfold rowIdMapLeafBase; rw [if_pos h8],
        Nat.zero_add] at hset
      have hcond : ¬ (wordAt arr (rowid >>> 6) &&& 2 ^ (rowid &&& 63) = 0) := by
        rw [land_63_eq_mod, and_two_pow_eq_zero_iff]; rw [wordAt, hset]; simp
      rw [if_neg hcond]
      refine ⟨rfl, ?_, ?_⟩
      · unfold leafBitSet wordAt
        rw [show rowIdMapLeafBase nrooms = 0 from by unfold rowIdMapLeafBase; rw [if_pos h8],
          Nat.zero_add]
        simp only [land_63_eq_mod]
        exact clearWordBit_self arr _ _ hmod
      · intro p hp
        rw [show summaryPath nrooms rowid = [] from by unfold summaryPath; rw [if_pos h8]] at hp
        cases hp
    · rw [if_neg h8]
      by_cases h16 : nrooms ≤ 2 ^ 16
      · rw [if_pos h16]
        rw [show rowIdMapLeafBase nrooms = 4 from by
          unfold rowIdMapLeafBase; rw [if_neg h8, if_pos h16]] at hset
        have hcond : ¬ (wordAt arr (4 + (rowid >>> 6)) &&& 2 ^ (rowid &&& 63) = 0) := by
          rw [land_63_eq_mod, and_two_pow_eq_zero_iff]; rw [wordAt, hset]; simp
        rw [if_neg hcond]
        refine ⟨rfl, ?_, ?_⟩
        · unfold leafBitSet wordAt
          rw [show rowIdMapLeafBase nrooms = 4 from by unfold rowIdMapLeafBase; rw [if_neg h8, if_pos h16]]
          simp only [land_63_eq_mod]
          exact clearWordBit_self _ _ _ hmod
        · intro p hp
          rw [show summaryPath nrooms rowid = [(rowid >>> 14, (rowid >>> 8) % 64)] from by
            unfold summaryPath; rw [if_neg h8, if_pos h16]] at hp
          rw [List.mem_singleton] at hp
          subst hp
          simp only [land_63_eq_mod]
          apply clearWordBit_preserves_false
          exact clearWordBit_self _ _ _ hmod8
      · rw [if_neg h16]
        by_cases h24 : nrooms ≤ 2 ^ 24
        · rw [if_pos h24]
          rw [show rowIdMapLeafBase nrooms = 4 + 1024 from by
            unfold rowIdMapLeafBase; rw [if_neg h8, if_neg h16, if_pos h24]] at hset
          have hcond : ¬ (wordAt arr (4 + 1024 + (rowid >>> 6)) &&&
              2 ^ (rowid &&& 63) = 0) := by
            rw [land_63_eq_mod, and_two_pow_eq_zero_iff]; rw [wordAt, hset]; simp
          rw [if_neg hcond]
          refine ⟨rfl, ?_, ?_⟩
          · unfold leafBitSet wordAt
            rw [show rowIdMapLeafBase nrooms = 4 + 1024 from by
              unfold rowIdMapLeafBase; rw [if_neg h8, if_neg h16, if_pos h24]]
            simp only [land_63_eq_mod]
            exact clearWordBit_self _ _ _ hmod
          · intro p hp
            rw [show summaryPath nrooms rowid =
              [(rowid >>> 22, (rowid >>> 16) % 64),
               (4 + (rowid >>> 14), (rowid >>> 8) % 64)] from by
              unfold summaryPath; rw [if_neg h8, if_neg h16, if_pos h24]] at hp
            simp only [List.mem_cons, List.mem_singleton, List.not_mem_nil,
              or_false] at hp
            simp only [land_63_eq_mod]
            rcases hp with rfl | rfl
            · apply clearWordBit_preserves_false
              apply clearWordBit_preserves_false
              exact clearWordBit_self _ _ _ hmod16
            · apply clearWordBit_preserves_false
              exact clearWordBit_self _ _ _ hmod8
        · rw [if_neg h24]
          rw [show rowIdMapLeafBase nrooms = 4 + 1024 + 262144 from by
            unfold rowIdMapLeafBase; rw [if_neg h8, if_neg h16, if_neg h24]] at hset
          have hcond : ¬ (wordAt arr (4 + 1024 + 262144 + (rowid >>> 6)) &&&
              2 ^ (rowid &&& 63) = 0) := by
            rw [land_63_eq_mod, and_two_pow_eq_zero_iff]; rw [wordAt, hset]; simp
          rw [if_neg hcond]
          refine ⟨rfl, ?_, ?_⟩
          · unfold leafBitSet wordAt
            rw [show rowIdMapLeafBase nrooms = 4 + 1024 + 262144 from by
              unfold rowIdMapLeafBase; rw [if_neg h8, if_neg h16, if_neg h24]]
            simp only [land_63_eq_mod]
            exact clearWordBit_self _ _ _ hmod
          · intro p hp
            rw [show summaryPath nrooms rowid =
              [(rowid >>> 30, (rowid >>> 24) % 64),
               (4 + (rowid >>> 22), (rowid >>> 16) % 64),
               (4 + 1024 + (rowid >>> 14), (rowid >>> 8) % 64)] from by
              unfold summaryPath; rw [if_neg h8, if_neg h16, if_neg h24]] at hp
            simp only [List.mem_cons, List.mem_singleton, List.not_mem_nil,
              or_false] at hp
            simp only [land_63_eq_mod]
            rcases hp with rfl | rfl | rfl
            · apply clearWordBit_preserves_false
              apply clearWordBit_preserves_false
              apply clearWordBit_preserves_false
              exact clearWordBit_self _ _ _ hmod24
            · apply clearWordBit_preserves_false
              apply clearWordBit_preserves_false
              exact clearWordBit_self _ _ _ hmod16
            · apply clearWordBit_preserves_false
              exact clearWordBit_self _ _ _ hmod8
  · intro hneg
    by_cases hlt : rowid < nrooms
    · have hset : leafBitSet arr nrooms rowid = false := by
        cases h : leafBitSet arr nrooms rowid
        · rfl
        · exact absurd ⟨hlt, h⟩ hneg
      unfold leafBitSet wordAt at hset
      unfold __gstoreFdwReleaseRowId
      rw [if_pos hlt]
      by_cases h8 : nrooms ≤ 2 ^ 8
      · rw [show rowIdMapLeafBase nrooms = 0 from by unfold rowIdMapLeafBase; rw [if_pos h8],
          Nat.zero_add] at hset
        rw [if_pos h8, if_pos (by
          rw [land_63_eq_mod, and_two_pow_eq_zero_iff]; rw [wordAt]; exact hset)]
        exact ⟨rfl, rfl⟩
      · rw [if_neg h8]
        by_cases h16 : nrooms ≤ 2 ^ 16
        · rw [show rowIdMapLeafBase nrooms = 4 from by
            unfold rowIdMapLeafBase; rw [if_neg h8, if_pos h16]] at hset
          rw [if_pos h16, if_pos (by
            rw [land_63_eq_mod, and_two_pow_eq_zero_iff]; rw [wordAt]; exact hset)]
          exact ⟨rfl, rfl⟩
        · rw [if_neg h16]
          by_cases h24 : nrooms ≤ 2 ^ 24
          · rw [show rowIdMapLeafBase nrooms = 4 + 1024 from by
              unfold rowIdMapLeafBase; rw [if_neg h8, if_neg h16, if_pos h24]] at hset
            rw [if_pos h24, if_pos (by
              rw [land_63_eq_mod, and_two_pow_eq_zero_iff]; rw [wordAt]; exact hset)]
            exact ⟨rfl, rfl⟩
          · rw [show rowIdMapLeafBase nrooms = 4 + 1024 + 262144 from by
              unfold rowIdMapLeafBase; rw [if_neg h8, if_neg h16, if_neg h24]] at hset
            rw [if_neg h24, if_pos (by
              rw [land_63_eq_mod, and_two_pow_eq_zero_iff]; rw [wordAt]; exact hset)]
            exact ⟨rfl, rfl⟩
    · unfold __gstoreFdwReleaseRowId
      rw [if_neg hlt]
      exact ⟨rfl, rfl⟩

/-- C8, witness: on the double-level fixture map (capacity 1000, row 9
allocated with its summary bit set), release returns true, clears the leaf
bit of row 9 and clears the summary bit, word 0 bit 0. -/
theorem releaseRowId_clears_path_witness :
    (__gstoreFdwReleaseRowId memC8 1000 9).1 = true ∧
    leafBitSet (__gstoreFdwReleaseRowId memC8 1000 9).2 1000 9 = false ∧
    ((__gstoreFdwReleaseRowId memC8 1000 9).2 0).testBit 0 = false :=
  ⟨((releaseRowId_clears_path memC8 1000 9).1 (by decide) (by decide)).1,
   ((releaseRowId_clears_path memC8 1000 9).1 (by decide) (by decide)).2.1,
   ((releaseRowId_clears_path memC8 1000 9).1 (by decide) (by decide)).2.2
     (0, 0) (by decide)⟩

/-- Sanity complement to the allocator findings of C4 and C9: at a
double-level capacity (1000), allocation and release agree on the leaf
addressing: allocating on the empty map returns row 0, does set the leaf
bit of row 0 in the RowIdMap layout, and an immediate release succeeds. -/
theorem allocate_release_agree_two_level :
    (gstoreFdwAllocateRowId (fun _ => 0) 1000 0).1 = 0 ∧
    leafBitSet (gstoreFdwAllocateRowId (fun _ => 0) 1000 0).2 1000 0 = true ∧
    (__gstoreFdwReleaseRowId
      (gstoreFdwAllocateRowId (fun _ => 0) 1000 0).2 1000 0).1 = true := by decide

end GstoreFdw




